import Mathlib

set_option maxHeartbeats 1000000

/-!
Verification development for the makeline order service (src/main.go).

The file embeds, as executable Lean definitions, the pieces of the program
the specification talks about: the decimal conversions performed by the
handlers (strconv.Atoi and strconv.FormatInt over 64-bit ints), the four
HTTP handlers (listOrdersByStatus, getOrder, updateOrder, fetchOrders)
modelled as pure functions from their inputs and an abstract repository to
an HTTP response plus the trace of repository calls they make, and the
startup path (getEnvVar, initDatabase) modelled over an explicit
environment. Theorems about these definitions settle the specification
claims.
-/

/-! ## Decimal strings: the model of strconv.Atoi and strconv.FormatInt -/

/-- A char is an ASCII decimal digit. -/
def isDigit (c : Char) : Bool := decide (48 ≤ c.toNat ∧ c.toNat ≤ 57)

/-- Numeric value of a digit char. -/
def digitVal (c : Char) : Nat := c.toNat - 48

/-- Digit char for a value below 10. -/
def digitChar (d : Nat) : Char := Char.ofNat (48 + d)

/-- Accumulating base-10 evaluation of a digit list, failing on a non-digit. -/
def parseDigitsAux : Nat → List Char → Option Nat
  | acc, [] => some acc
  | acc, c :: cs => if isDigit c then parseDigitsAux (acc * 10 + digitVal c) cs else none

/-- Base-10 evaluation of a nonempty all-digit char list. -/
def parseDigits : List Char → Option Nat
  | [] => none
  | c :: cs => parseDigitsAux 0 (c :: cs)

/-- Largest value of Go int64 (the int type of strconv.Atoi on 64-bit targets). -/
def int64MaxNat : Nat := 9223372036854775807

/-- Range check of strconv.ParseInt for a nonnegative parse. -/
def rangeCheckPos (m : Nat) : Option Int :=
  if m ≤ int64MaxNat then some (m : Int) else none

/-- Range check of strconv.ParseInt for a negated magnitude. -/
def rangeCheckNeg (m : Nat) : Option Int :=
  if m ≤ int64MaxNat + 1 then some (-(m : Int)) else none

/-- Core of strconv.Atoi on the char list of the input: optional single sign,
then a nonempty run of decimal digits, with the int64 range check; any other
shape is an error (modelled as none). -/
def goAtoiCore : List Char → Option Int
  | [] => none
  | c :: cs =>
    if c = '+' then (parseDigits cs).bind rangeCheckPos
    else if c = '-' then (parseDigits cs).bind rangeCheckNeg
    else (parseDigits (c :: cs)).bind rangeCheckPos

/-- Model of strconv.Atoi (equivalently strconv.ParseInt base 10 over int64). -/
def goAtoi (s : String) : Option Int := goAtoiCore s.toList

/-- Fuel-driven most-significant-first decimal digits of a Nat; fuel n + 1 is
always sufficient for n. -/
def natReprFuel : Nat → Nat → List Char
  | 0, _ => []
  | fuel + 1, n =>
    if n < 10 then [digitChar n]
    else natReprFuel fuel (n / 10) ++ [digitChar (n % 10)]

/-- Decimal digit chars of a Nat, most significant first. -/
def natRepr (n : Nat) : List Char := natReprFuel (n + 1) n

/-- Model of strconv.FormatInt(v, 10): minus sign for negatives, then the
decimal digits of the magnitude. -/
def formatInt (n : Int) : String :=
  if n < 0 then String.mk ('-' :: natRepr n.natAbs) else String.mk (natRepr n.natAbs)

/-! ### Facts about the digit conversions -/

lemma digitChar_isDigit (d : Nat) (hd : d < 10) : isDigit (digitChar d) = true := by
  interval_cases d <;> decide

lemma digitVal_digitChar (d : Nat) (hd : d < 10) : digitVal (digitChar d) = d := by
  interval_cases d <;> decide

lemma digitChar_ne_zero (d : Nat) (h1 : 1 ≤ d) (hd : d < 10) : digitChar d ≠ '0' := by
  interval_cases d <;> decide

lemma parseDigitsAux_append (xs ys : List Char) (acc : Nat) :
    parseDigitsAux acc (xs ++ ys) = (parseDigitsAux acc xs).bind (fun a => parseDigitsAux a ys) := by
  induction xs generalizing acc with
  | nil => rfl
  | cons c cs ih =>
    by_cases hc : isDigit c
    · simp [parseDigitsAux, hc, ih]
    · simp [parseDigitsAux, hc]

lemma natReprFuel_ne_nil (fuel : Nat) :
    ∀ n, n < fuel → natReprFuel fuel n ≠ [] := by
  induction fuel with
  | zero => intro n hn; omega
  | succ f ih =>
    intro n hn
    by_cases h10 : n < 10 <;> simp [natReprFuel, h10]

lemma natReprFuel_digits (fuel : Nat) :
    ∀ n, n < fuel → ∀ c ∈ natReprFuel fuel n, isDigit c = true := by
  induction fuel with
  | zero => intro n hn; omega
  | succ f ih =>
    intro n hn c hc
    by_cases h10 : n < 10
    · simp [natReprFuel, h10] at hc
      exact hc ▸ digitChar_isDigit n h10
    · have hlt : n / 10 < n := Nat.div_lt_self (by omega) (by omega)
      simp [natReprFuel, h10] at hc
      rcases hc with hc | hc
      · exact ih (n / 10) (by omega) c hc
      · exact hc ▸ digitChar_isDigit _ (Nat.mod_lt _ (by omega))

lemma natReprFuel_head (fuel : Nat) :
    ∀ n, n < fuel → n ≠ 0 → ∀ c, (natReprFuel fuel n).head? = some c → c ≠ '0' := by
  induction fuel with
  | zero => intro n hn; omega
  | succ f ih =>
    intro n hn hn0 c hc
    by_cases h10 : n < 10
    · simp [natReprFuel, h10] at hc
      exact hc ▸ digitChar_ne_zero n (by omega) h10
    · have hlt : n / 10 < n := Nat.div_lt_self (by omega) (by omega)
      have hdf : n / 10 < f := by omega
      have hne := natReprFuel_ne_nil f (n / 10) hdf
      simp only [natReprFuel, if_neg h10] at hc
      cases hl : natReprFuel f (n / 10) with
      | nil => exact absurd hl hne
      | cons a l =>
        rw [hl] at hc
        simp at hc
        refine hc ▸ ih (n / 10) hdf (by omega) a ?_
        rw [hl]; rfl

lemma parseDigitsAux_natReprFuel (fuel : Nat) :
    ∀ n, n < fuel → ∀ acc,
      parseDigitsAux acc (natReprFuel fuel n)
        = some (acc * 10 ^ (natReprFuel fuel n).length + n) := by
  induction fuel with
  | zero => intro n hn; omega
  | succ f ih =>
    intro n hn acc
    by_cases h10 : n < 10
    · simp [natReprFuel, h10, parseDigitsAux, digitChar_isDigit n h10,
        digitVal_digitChar n h10]
    · have hlt : n / 10 < n := Nat.div_lt_self (by omega) (by omega)
      have hdf : n / 10 < f := by omega
      have hmod : n % 10 < 10 := Nat.mod_lt _ (by omega)
      simp only [natReprFuel, if_neg h10]
      rw [parseDigitsAux_append, ih (n / 10) hdf acc]
      have hdm : 10 * (n / 10) + n % 10 = n := Nat.div_add_mod n 10
      have key : ((acc * 10 ^ (natReprFuel f (n / 10)).length + n / 10) * 10 + n % 10)
          = acc * 10 ^ ((natReprFuel f (n / 10)).length + 1) + n := by
        calc (acc * 10 ^ (natReprFuel f (n / 10)).length + n / 10) * 10 + n % 10
            = acc * (10 ^ (natReprFuel f (n / 10)).length * 10)
                + (10 * (n / 10) + n % 10) := by ring
          _ = acc * 10 ^ ((natReprFuel f (n / 10)).length + 1) + n := by
                rw [hdm, pow_succ]
      simp [parseDigitsAux, digitChar_isDigit _ hmod, digitVal_digitChar _ hmod, key]

lemma natRepr_ne_nil (n : Nat) : natRepr n ≠ [] :=
  natReprFuel_ne_nil (n + 1) n (Nat.lt_succ_self n)

lemma natRepr_digits (n : Nat) : ∀ c ∈ natRepr n, isDigit c = true :=
  natReprFuel_digits (n + 1) n (Nat.lt_succ_self n)

lemma natRepr_head (n : Nat) (hn : n ≠ 0) :
    ∀ c, (natRepr n).head? = some c → c ≠ '0' :=
  natReprFuel_head (n + 1) n (Nat.lt_succ_self n) hn

lemma parseDigits_natRepr (n : Nat) : parseDigits (natRepr n) = some n := by
  have hne := natRepr_ne_nil n
  have h := parseDigitsAux_natReprFuel (n + 1) n (Nat.lt_succ_self n) 0
  unfold natRepr at hne h ⊢
  cases hl : natReprFuel (n + 1) n with
  | nil => exact absurd hl hne
  | cons a l =>
    rw [hl] at h
    simpa [parseDigits] using h

lemma isDigit_ne_plus {c : Char} (h : isDigit c = true) : c ≠ '+' := by
  intro hc; subst hc; exact absurd h (by decide)

lemma isDigit_ne_minus {c : Char} (h : isDigit c = true) : c ≠ '-' := by
  intro hc; subst hc; exact absurd h (by decide)

lemma toList_mk (l : List Char) : (String.mk l).toList = l := rfl

/-- Round-trip: formatting any int64 value and re-parsing it with the Atoi
model recovers the value. -/
lemma goAtoi_formatInt (n : Int)
    (hlo : -9223372036854775808 ≤ n) (hhi : n ≤ 9223372036854775807) :
    goAtoi (formatInt n) = some n := by
  by_cases hneg : n < 0
  · have hmag1 : n.natAbs ≠ 0 := by omega
    have hmag : n.natAbs ≤ int64MaxNat + 1 := by unfold int64MaxNat; omega
    unfold formatInt
    rw [if_pos hneg]
    unfold goAtoi
    rw [toList_mk]
    simp only [goAtoiCore]
    rw [if_neg (by decide), if_pos trivial]
    rw [parseDigits_natRepr]
    simp only [Option.some_bind, rangeCheckNeg, if_pos hmag]
    simp only [Option.some.injEq]
    omega
  · have hmag : n.natAbs ≤ int64MaxNat := by unfold int64MaxNat; omega
    unfold formatInt
    rw [if_neg hneg]
    unfold goAtoi
    rw [toList_mk]
    cases hl : natRepr n.natAbs with
    | nil => exact absurd hl (natRepr_ne_nil _)
    | cons c cs =>
      have hdig : isDigit c = true := by
        refine natRepr_digits n.natAbs c ?_
        rw [hl]; exact List.mem_cons_self _ _
      simp only [goAtoiCore]
      rw [if_neg (isDigit_ne_plus hdig), if_neg (isDigit_ne_minus hdig)]
      rw [← hl, parseDigits_natRepr]
      simp only [Option.some_bind, rangeCheckPos, if_pos hmag]
      simp only [Option.some.injEq]
      omega

/-- Any successful Atoi parse is within the int64 range. -/
lemma goAtoi_bounds (s : String) (n : Int) (h : goAtoi s = some n) :
    -9223372036854775808 ≤ n ∧ n ≤ 9223372036854775807 := by
  unfold goAtoi at h
  cases hl : s.toList with
  | nil => rw [hl] at h; exact absurd h (by simp [goAtoiCore])
  | cons c cs =>
    rw [hl] at h
    simp only [goAtoiCore] at h
    split_ifs at h with h1 h2
    · cases hp : parseDigits cs with
      | none => rw [hp] at h; exact absurd h (by simp)
      | some m =>
        rw [hp] at h
        simp only [Option.some_bind, rangeCheckPos, rangeCheckNeg] at h
        split_ifs at h with hr
        · simp only [Option.some.injEq] at h
          unfold int64MaxNat at hr
          omega
    · cases hp : parseDigits cs with
      | none => rw [hp] at h; exact absurd h (by simp)
      | some m =>
        rw [hp] at h
        simp only [Option.some_bind, rangeCheckPos, rangeCheckNeg] at h
        split_ifs at h with hr
        · simp only [Option.some.injEq] at h
          unfold int64MaxNat at hr
          omega
    · cases hp : parseDigits (c :: cs) with
      | none => rw [hp] at h; exact absurd h (by simp)
      | some m =>
        rw [hp] at h
        simp only [Option.some_bind, rangeCheckPos, rangeCheckNeg] at h
        split_ifs at h with hr
        · simp only [Option.some.injEq] at h
          unfold int64MaxNat at hr
          omega

/-- Core of the canonicality check, over the char list of the string. -/
def isCanonicalCore : List Char → Bool
  | [] => false
  | c :: cs =>
    if c = '-' then
      match cs with
      | [] => false
      | d :: ds => isDigit d && (d != '0') && ds.all (fun x => isDigit x)
    else
      isDigit c && cs.all (fun x => isDigit x) && (c != '0' || cs.isEmpty)

/-- A string is a canonical decimal integer: either "0", or a nonempty digit
run not starting with '0', or a '-' followed by such a nonzero run. -/
def isCanonicalDecimal (s : String) : Bool := isCanonicalCore s.toList

lemma isCanonicalDecimal_formatInt (n : Int) : isCanonicalDecimal (formatInt n) = true := by
  by_cases hneg : n < 0
  · have hmag : n.natAbs ≠ 0 := by omega
    unfold formatInt
    rw [if_pos hneg]
    unfold isCanonicalDecimal
    rw [toList_mk]
    cases hl : natRepr n.natAbs with
    | nil => exact absurd hl (natRepr_ne_nil _)
    | cons d ds =>
      have hdigs := natRepr_digits n.natAbs
      rw [hl] at hdigs
      have hd : isDigit d = true := hdigs d (List.mem_cons_self _ _)
      have hd0 : d ≠ '0' := by
        refine natRepr_head n.natAbs hmag d ?_
        rw [hl]; rfl
      simp only [isCanonicalCore, if_pos trivial, Bool.and_eq_true, List.all_eq_true]
      refine ⟨⟨hd, ?_⟩, ?_⟩
      · simp [bne, hd0]
      · intro x hx
        exact hdigs x (List.mem_cons_of_mem _ hx)
  · unfold formatInt
    rw [if_neg hneg]
    unfold isCanonicalDecimal
    rw [toList_mk]
    cases hl : natRepr n.natAbs with
    | nil => exact absurd hl (natRepr_ne_nil _)
    | cons c cs =>
      have hdigs := natRepr_digits n.natAbs
      rw [hl] at hdigs
      have hc : isDigit c = true := hdigs c (List.mem_cons_self _ _)
      simp only [isCanonicalCore]
      rw [if_neg (isDigit_ne_minus hc)]
      simp only [Bool.and_eq_true, List.all_eq_true, Bool.or_eq_true]
      refine ⟨⟨hc, ?_⟩, ?_⟩
      · intro x hx
        exact hdigs x (List.mem_cons_of_mem _ hx)
      · by_cases h0 : n.natAbs = 0
        · right
          rw [h0] at hl
          have h01 : natRepr 0 = ['0'] := rfl
          rw [h01] at hl
          cases hl
          rfl
        · left
          have hc0 := natRepr_head n.natAbs h0 c (by rw [hl]; rfl)
          simp [bne, hc0]

/-! ## Data model (Order, Status) and the abstract repository

The Order struct itself is not under src/ (only src/main.go is); its field
set is taken from the fields src/main.go reads and writes (OrderID,
CustomerID, Items, Status) as the data model of the spec describes them. Items
are opaque to this core. -/

/-- Modelled from the spec: line items are opaque records passed through
unmodified; the concrete item type is not under src/. -/
structure Item where
  payload : String
deriving DecidableEq

/-- Modelled from the spec: the Order entity, with the fields src/main.go
reads and writes. Status is an integer-valued enum type in the source. -/
structure Order where
  OrderID : String
  CustomerID : String
  Items : List Item
  Status : Int
deriving DecidableEq

/-- Body of a successful HTTP response (a single order or a sequence). -/
inductive Body
  | orders (os : List Order)
  | order (o : Order)
deriving DecidableEq

/-- An HTTP response: status code, and the JSON body if one is written
(AbortWithStatus and c.Status write no body). -/
structure Response where
  code : Nat
  body : Option Body
deriving DecidableEq

/-- One repository invocation, with the argument the handler passed. -/
inductive RepoCall
  | getOrdersByStatus (s : Int)
  | getOrder (id : String)
  | updateOrder (o : Order)
  | insertOrders (os : List Order)
  | getPendingOrders
deriving DecidableEq

/-- Modelled from the spec: the repository contract (§4.1); the backend
implementations are not under src/. Each operation either succeeds or
returns an error. -/
structure OrderRepo where
  GetOrdersByStatus : Int → Except String (List Order)
  GetOrder : String → Except String Order
  UpdateOrder : Order → Except String Unit
  InsertOrders : List Order → Except String Unit
  GetPendingOrders : Unit → Except String (List Order)

/-! ## The HTTP handlers of src/main.go

Each handler is embedded as a pure function of its request data and the
repository, returning the response it writes together with the trace of
repository calls it makes, in order. -/

/-- listOrdersByStatus (src/main.go lines 68 to 96): GET /order with a
status query parameter; c.Query yields the empty string when the parameter
is missing. -/
def listOrdersByStatus (repo : OrderRepo) (statusParam : String) :
    Response × List RepoCall :=
  if statusParam = "" then (⟨400, none⟩, [])
  else
    match goAtoi statusParam with
    | none => (⟨400, none⟩, [])
    | some s =>
      if s < 0 ∨ 2 < s then (⟨400, none⟩, [])
      else
        match repo.GetOrdersByStatus s with
        | Except.error _ => (⟨500, none⟩, [RepoCall.getOrdersByStatus s])
        | Except.ok orders =>
          (⟨200, some (Body.orders orders)⟩, [RepoCall.getOrdersByStatus s])

/-- getOrder (src/main.go lines 191 to 216): GET /order/:id. -/
def getOrder (repo : OrderRepo) (idParam : String) : Response × List RepoCall :=
  match goAtoi idParam with
  | none => (⟨400, none⟩, [])
  | some id =>
    match repo.GetOrder (formatInt id) with
    | Except.error _ => (⟨500, none⟩, [RepoCall.getOrder (formatInt id)])
    | Except.ok o => (⟨200, some (Body.order o)⟩, [RepoCall.getOrder (formatInt id)])

/-- updateOrder (src/main.go lines 221 to 262): PUT /order. The JSON
binding of the request body is an input: BindJSON either yields an Order or
fails. -/
def updateOrder (repo : OrderRepo) (bindResult : Except String Order) :
    Response × List RepoCall :=
  match bindResult with
  | Except.error _ => (⟨500, none⟩, [])
  | Except.ok order =>
    match goAtoi order.OrderID with
    | none => (⟨400, none⟩, [])
    | some id =>
      match repo.UpdateOrder ⟨formatInt id, order.CustomerID, order.Items, order.Status⟩ with
      | Except.error _ =>
        (⟨500, none⟩, [RepoCall.updateOrder ⟨formatInt id, order.CustomerID, order.Items, order.Status⟩])
      | Except.ok _ =>
        (⟨202, none⟩, [RepoCall.updateOrder ⟨formatInt id, order.CustomerID, order.Items, order.Status⟩])

/-- A step taken by fetchOrders: the queue read, or a repository call. -/
inductive FetchStep
  | queueFetch
  | insertOrders (os : List Order)
  | getPendingOrders
deriving DecidableEq

/-- fetchOrders (src/main.go lines 109 to 142): GET /order/fetch. The queue
read result is an input (getOrdersFromQueue is an external collaborator). -/
def fetchOrders (repo : OrderRepo) (queue : Except String (List Order)) :
    Response × List FetchStep :=
  match queue with
  | Except.error _ => (⟨500, none⟩, [FetchStep.queueFetch])
  | Except.ok orders =>
    match repo.InsertOrders orders with
    | Except.error _ => (⟨500, none⟩, [FetchStep.queueFetch, FetchStep.insertOrders orders])
    | Except.ok _ =>
      match repo.GetPendingOrders () with
      | Except.error _ =>
        (⟨500, none⟩,
         [FetchStep.queueFetch, FetchStep.insertOrders orders, FetchStep.getPendingOrders])
      | Except.ok pending =>
        (⟨200, some (Body.orders pending)⟩,
         [FetchStep.queueFetch, FetchStep.insertOrders orders, FetchStep.getPendingOrders])

/-! ## Startup: getEnvVar and initDatabase (src/main.go lines 265 to 326)

The environment is an explicit map from variable names to values, with the
empty string meaning unset, exactly as os.Getenv reports it. -/

/-- The process environment as os.Getenv sees it. -/
abbrev Env := String → String

/-- The fallback loop inside getEnvVar: walk the fallback names, overwriting
the value with each lookup and stopping at the first empty one. -/
def scanFallbacks (env : Env) : List String → String
  | [] => ""
  | fb :: rest =>
    if env fb = "" then ""
    else
      match rest with
      | [] => env fb
      | _ :: _ => scanFallbacks env rest

/-- getEnvVar (src/main.go lines 265 to 283): the error value models the
os.Exit(1) call. -/
def getEnvVar (env : Env) (varName : String) (fallbackVarNames : List String) :
    Except Unit String :=
  if env varName = "" then
    if scanFallbacks env fallbackVarNames = "" then Except.error ()
    else Except.ok (scanFallbacks env fallbackVarNames)
  else Except.ok (env varName)

/-- The single recognized partitioned API selector (src/main.go line 15). -/
def AZURE_COSMOS_DB_SQL_API : String := "cosmosdbsql"

/-- PartitionKey as passed to the CosmosDB constructors. -/
structure PartitionKey where
  key : String
  value : String
deriving DecidableEq

/-- A constructed backend repository, recording which constructor built it
and with which arguments. -/
inductive RepoSpec
  | cosmosManagedIdentity (uri dbName containerName : String) (pk : PartitionKey)
  | cosmosSharedKey (uri dbName containerName password : String) (pk : PartitionKey)
  | mongo (uri dbName collectionName username password : String)
deriving DecidableEq

/-- The Order Service facade returned by initDatabase. -/
structure OrderService where
  repo : RepoSpec
deriving DecidableEq

/-- Modelled from the spec: NewCosmosDBOrderRepoWithManagedIdentity is not
under src/; per the spec it connects using only the endpoint URI (no
password-like value) and yields a connected client or an error. The
abstract predicate connOk decides whether the connection succeeds. -/
def NewCosmosDBOrderRepoWithManagedIdentity (connOk : RepoSpec → Bool)
    (uri dbName containerName : String) (pk : PartitionKey) : Except Unit RepoSpec :=
  let r := RepoSpec.cosmosManagedIdentity uri dbName containerName pk
  if connOk r then Except.ok r else Except.error ()

/-- Modelled from the spec: NewCosmosDBOrderRepo (shared-key auth) is not
under src/; it connects using the endpoint URI plus the pre-shared key. -/
def NewCosmosDBOrderRepo (connOk : RepoSpec → Bool)
    (uri dbName containerName password : String) (pk : PartitionKey) :
    Except Unit RepoSpec :=
  let r := RepoSpec.cosmosSharedKey uri dbName containerName password pk
  if connOk r then Except.ok r else Except.error ()

/-- Modelled from the spec: NewMongoDBOrderRepo is not under src/; it
connects using URI plus optional credentials. -/
def NewMongoDBOrderRepo (connOk : RepoSpec → Bool)
    (uri dbName collectionName username password : String) : Except Unit RepoSpec :=
  let r := RepoSpec.mongo uri dbName collectionName username password
  if connOk r then Except.ok r else Except.error ()

/-- Modelled from the spec: NewOrderService wraps a constructed repository
in the Order Service facade (§4.5), pure delegation with no extra state. -/
def NewOrderService (r : RepoSpec) : OrderService := ⟨r⟩

/-- Outcome of initialization: os.Exit inside getEnvVar, a returned
construction error (which main also treats as fatal), or the service. -/
inductive InitResult
  | exited
  | failed
  | ok (svc : OrderService)
deriving DecidableEq

/-- initDatabase (src/main.go lines 286 to 326). -/
def initDatabase (connOk : RepoSpec → Bool) (env : Env) (apiType : String) : InitResult :=
  match getEnvVar env "AZURE_COSMOS_RESOURCEENDPOINT" ["ORDER_DB_URI"] with
  | Except.error _ => InitResult.exited
  | Except.ok dbURI =>
    match getEnvVar env "ORDER_DB_NAME" [] with
    | Except.error _ => InitResult.exited
    | Except.ok dbName =>
      if apiType = AZURE_COSMOS_DB_SQL_API then
        match getEnvVar env "ORDER_DB_CONTAINER_NAME" [] with
        | Except.error _ => InitResult.exited
        | Except.ok containerName =>
          match getEnvVar env "ORDER_DB_PARTITION_KEY" [] with
          | Except.error _ => InitResult.exited
          | Except.ok dbPartitionKey =>
            match getEnvVar env "ORDER_DB_PARTITION_VALUE" [] with
            | Except.error _ => InitResult.exited
            | Except.ok dbPartitionValue =>
              if (if env "USE_WORKLOAD_IDENTITY_AUTH" = "" then "false"
                  else env "USE_WORKLOAD_IDENTITY_AUTH") = "true" then
                match NewCosmosDBOrderRepoWithManagedIdentity connOk dbURI dbName
                    containerName ⟨dbPartitionKey, dbPartitionValue⟩ with
                | Except.error _ => InitResult.failed
                | Except.ok r => InitResult.ok (NewOrderService r)
              else
                match NewCosmosDBOrderRepo connOk dbURI dbName containerName
                    (env "ORDER_DB_PASSWORD") ⟨dbPartitionKey, dbPartitionValue⟩ with
                | Except.error _ => InitResult.failed
                | Except.ok r => InitResult.ok (NewOrderService r)
      else
        match getEnvVar env "ORDER_DB_COLLECTION_NAME" [] with
        | Except.error _ => InitResult.exited
        | Except.ok collectionName =>
          match NewMongoDBOrderRepo connOk dbURI dbName collectionName
              (env "ORDER_DB_USERNAME") (env "ORDER_DB_PASSWORD") with
          | Except.error _ => InitResult.failed
          | Except.ok r => InitResult.ok (NewOrderService r)

/-- Point update of the environment. -/
def setEnv (env : Env) (key value : String) : Env :=
  fun k => if k = key then value else env k

/-! ## Concrete test repository for witnesses -/

/-- A concrete repository whose operations all succeed, used to instantiate
witnesses and counterexamples. -/
def stubRepo : OrderRepo where
  GetOrdersByStatus := fun _ => Except.ok []
  GetOrder := fun i => Except.ok ⟨i, "", [], 0⟩
  UpdateOrder := fun _ => Except.ok ()
  InsertOrders := fun _ => Except.ok ()
  GetPendingOrders := fun _ => Except.ok []

/-! ## Claim theorems for the HTTP handlers -/

/-- C3: the list-by-status handler returns 400 without a repository call
when the status query parameter is missing, unparseable, or out of the
range 0..2; when it parses to s in 0..2 the handler calls
GetOrdersByStatus(s), and on repository success responds 200 with the
returned order sequence. -/
theorem listOrdersByStatus_spec (repo : OrderRepo) (statusParam : String) :
    (statusParam = "" → listOrdersByStatus repo statusParam = (⟨400, none⟩, [])) ∧
    (goAtoi statusParam = none → listOrdersByStatus repo statusParam = (⟨400, none⟩, [])) ∧
    (∀ s, goAtoi statusParam = some s → (s < 0 ∨ 2 < s) →
       listOrdersByStatus repo statusParam = (⟨400, none⟩, [])) ∧
    (∀ s, goAtoi statusParam = some s → 0 ≤ s → s ≤ 2 →
       (listOrdersByStatus repo statusParam).2 = [RepoCall.getOrdersByStatus s] ∧
       ∀ os, repo.GetOrdersByStatus s = Except.ok os →
         (listOrdersByStatus repo statusParam).1 = ⟨200, some (Body.orders os)⟩) := by
  by_cases hq : statusParam = ""
  · refine ⟨fun _ => by simp [listOrdersByStatus, hq],
      fun _ => by simp [listOrdersByStatus, hq], ?_, ?_⟩
    · intro s hs hr; simp [listOrdersByStatus, hq]
    · intro s hs
      have hnone : goAtoi "" = none := rfl
      rw [hq, hnone] at hs
      exact Option.noConfusion hs
  · refine ⟨fun h => absurd h hq, ?_, ?_, ?_⟩
    · intro hn
      simp [listOrdersByStatus, hq, hn]
    · intro s hs hr
      simp [listOrdersByStatus, hq, hs, hr]
    · intro s hs h0 h2
      have hr : ¬(s < 0 ∨ 2 < s) := by omega
      cases hg : repo.GetOrdersByStatus s with
      | error e => simp [listOrdersByStatus, hq, hs, hr, hg]
      | ok os => simp [listOrdersByStatus, hq, hs, hr, hg]

/-- C3 witness: with the all-ok repository and status parameter "1", the
handler calls GetOrdersByStatus(1) and responds 200 with the returned
sequence. -/
theorem listOrdersByStatus_spec_witness :
    (listOrdersByStatus stubRepo "1").2 = [RepoCall.getOrdersByStatus 1] ∧
    (listOrdersByStatus stubRepo "1").1 = ⟨200, some (Body.orders [])⟩ := by
  have h := (listOrdersByStatus_spec stubRepo "1").2.2.2 1 (by decide) (by decide) (by decide)
  exact ⟨h.1, h.2 [] rfl⟩

/-- C8: the update handler returns 400 without a repository call when the
OrderID of the body is unparseable; when it parses, the handler calls
UpdateOrder with only the OrderID normalized (CustomerID, Items, Status
unchanged) and responds 202 on repository success. -/
theorem updateOrder_spec (repo : OrderRepo) (order : Order) :
    (goAtoi order.OrderID = none → updateOrder repo (Except.ok order) = (⟨400, none⟩, [])) ∧
    (∀ n, goAtoi order.OrderID = some n →
       (updateOrder repo (Except.ok order)).2
         = [RepoCall.updateOrder ⟨formatInt n, order.CustomerID, order.Items, order.Status⟩] ∧
       (repo.UpdateOrder ⟨formatInt n, order.CustomerID, order.Items, order.Status⟩
           = Except.ok () →
         (updateOrder repo (Except.ok order)).1 = ⟨202, none⟩)) := by
  constructor
  · intro hn; simp [updateOrder, hn]
  · intro n hn
    cases hu : repo.UpdateOrder ⟨formatInt n, order.CustomerID, order.Items, order.Status⟩ with
    | error e => simp [updateOrder, hn, hu]
    | ok u => simp [updateOrder, hn, hu]

/-- C8 witness: a body with OrderID "007" is accepted, UpdateOrder receives
the normalized ID "7" with the other fields unchanged, and the response is
202. -/
theorem updateOrder_spec_witness :
    (updateOrder stubRepo (Except.ok ⟨"007", "cust", [⟨"item"⟩], 2⟩)).2
      = [RepoCall.updateOrder ⟨"7", "cust", [⟨"item"⟩], 2⟩] ∧
    (updateOrder stubRepo (Except.ok ⟨"007", "cust", [⟨"item"⟩], 2⟩)).1 = ⟨202, none⟩ := by
  have h := (updateOrder_spec stubRepo ⟨"007", "cust", [⟨"item"⟩], 2⟩).2 7 (by decide)
  have hf : formatInt 7 = "7" := by decide
  rw [hf] at h
  exact ⟨h.1, h.2 rfl⟩

/-- C9: fetchOrders performs queue read, then InsertOrders with the queue
batch, then GetPendingOrders, responding 200 with the pending result; any
failing step stops the sequence and yields 500 with no body. -/
theorem fetchOrders_spec (repo : OrderRepo) (queue : Except String (List Order)) :
    (∀ e, queue = Except.error e →
       fetchOrders repo queue = (⟨500, none⟩, [FetchStep.queueFetch])) ∧
    (∀ batch, queue = Except.ok batch →
      (∀ e, repo.InsertOrders batch = Except.error e →
         fetchOrders repo queue
           = (⟨500, none⟩, [FetchStep.queueFetch, FetchStep.insertOrders batch])) ∧
      (repo.InsertOrders batch = Except.ok () →
        (∀ e, repo.GetPendingOrders () = Except.error e →
           fetchOrders repo queue
             = (⟨500, none⟩,
                [FetchStep.queueFetch, FetchStep.insertOrders batch,
                 FetchStep.getPendingOrders])) ∧
        (∀ pending, repo.GetPendingOrders () = Except.ok pending →
           fetchOrders repo queue
             = (⟨200, some (Body.orders pending)⟩,
                [FetchStep.queueFetch, FetchStep.insertOrders batch,
                 FetchStep.getPendingOrders])))) := by
  constructor
  · intro e he; simp [fetchOrders, he]
  · intro batch hb
    refine ⟨?_, ?_⟩
    · intro e he; simp [fetchOrders, hb, he]
    · intro hi
      refine ⟨?_, ?_⟩
      · intro e he; simp [fetchOrders, hb, hi, he]
      · intro pending hp; simp [fetchOrders, hb, hi, hp]

/-- C9 witness: with the all-ok repository and a nonempty queue batch, the
three steps run in order and the response carries the pending result (the
empty list), not the queue batch. -/
theorem fetchOrders_spec_witness :
    fetchOrders stubRepo (Except.ok [⟨"7", "c", [], 0⟩])
      = (⟨200, some (Body.orders [])⟩,
         [FetchStep.queueFetch, FetchStep.insertOrders [⟨"7", "c", [], 0⟩],
          FetchStep.getPendingOrders]) := by
  have h := (fetchOrders_spec stubRepo (Except.ok [⟨"7", "c", [], 0⟩])).2 [⟨"7", "c", [], 0⟩] rfl
  exact (h.2 rfl).2 [] rfl

/-- C10: when the JSON binding of the request body fails, the update
handler responds 500 (not 400) and makes no repository call. -/
theorem updateOrder_malformed_body_500 (repo : OrderRepo) (e : String) :
    updateOrder repo (Except.error e) = (⟨500, none⟩, []) := rfl

/-- C1 counterexample: a well-formed body with Status 5 (outside 0..2) and
a numeric OrderID is not rejected; UpdateOrder is called with that status. -/
theorem updateOrder_forwards_invalid_status :
    (updateOrder stubRepo (Except.ok ⟨"7", "c", [], 5⟩)).2
      = [RepoCall.updateOrder ⟨"7", "c", [], 5⟩] ∧
    ¬((5 : Int) = 0 ∨ (5 : Int) = 1 ∨ (5 : Int) = 2) := by
  exact ⟨by decide, by decide⟩

/-- C1 amended: the list-by-status handler never calls GetOrdersByStatus
with a status outside 0..2; the update handler performs no status
validation and forwards the Status of the body unchanged to UpdateOrder. -/
theorem status_validation_amended (repo : OrderRepo) (p : String) (order : Order) :
    (∀ s, RepoCall.getOrdersByStatus s ∈ (listOrdersByStatus repo p).2 → 0 ≤ s ∧ s ≤ 2) ∧
    (∀ o2, RepoCall.updateOrder o2 ∈ (updateOrder repo (Except.ok order)).2 →
       o2.Status = order.Status) := by
  constructor
  · intro s hs
    by_cases hq : p = ""
    · simp [listOrdersByStatus, hq] at hs
    · cases hg : goAtoi p with
      | none => simp [listOrdersByStatus, hq, hg] at hs
      | some t =>
        by_cases hr : t < 0 ∨ 2 < t
        · simp [listOrdersByStatus, hq, hg, hr] at hs
        · cases hres : repo.GetOrdersByStatus t with
          | error e =>
            simp [listOrdersByStatus, hq, hg, hr, hres] at hs
            omega
          | ok os =>
            simp [listOrdersByStatus, hq, hg, hr, hres] at hs
            omega
  · intro o2 h2
    cases hg : goAtoi order.OrderID with
    | none => simp [updateOrder, hg] at h2
    | some idv =>
      cases hu : repo.UpdateOrder ⟨formatInt idv, order.CustomerID, order.Items, order.Status⟩ with
      | error e =>
        simp [updateOrder, hg, hu] at h2
        rw [h2]
      | ok u =>
        simp [updateOrder, hg, hu] at h2
        rw [h2]

/-- C1 amended witness: instantiating the list-handler bound at parameter
"1" and the call it makes. -/
theorem status_validation_amended_witness : (0 : Int) ≤ 1 ∧ (1 : Int) ≤ 2 :=
  (status_validation_amended stubRepo "1" ⟨"7", "c", [], 5⟩).1 1 (by decide)

/-- C2 counterexample: the id path parameter "-5" is accepted (Atoi parses
it) and the repository receives the string "-5", which carries a sign. -/
theorem repo_id_signed_counterexample :
    (getOrder stubRepo "-5").2 = [RepoCall.getOrder "-5"] ∧
    "-5".toList.head? = some '-' ∧
    goAtoi "-5" = some (-5) := by
  exact ⟨by decide, by decide, by decide⟩

/-- C2 amended: every ID string handed to the repository by getOrder or
updateOrder is the canonical decimal representation of the integer the
accepted input parsed to: no leading zeros, a sign only when the integer is
negative, and it parses back to the same integer. -/
theorem repo_id_canonical_amended (repo : OrderRepo) (idParam : String) (order : Order) :
    (∀ n, goAtoi idParam = some n →
       (getOrder repo idParam).2 = [RepoCall.getOrder (formatInt n)] ∧
       goAtoi (formatInt n) = some n ∧ isCanonicalDecimal (formatInt n) = true) ∧
    (∀ n, goAtoi order.OrderID = some n →
       ∀ o2, RepoCall.updateOrder o2 ∈ (updateOrder repo (Except.ok order)).2 →
         o2.OrderID = formatInt n ∧ goAtoi o2.OrderID = some n ∧
         isCanonicalDecimal o2.OrderID = true) := by
  constructor
  · intro n hn
    have hb := goAtoi_bounds idParam n hn
    refine ⟨?_, goAtoi_formatInt n hb.1 hb.2, isCanonicalDecimal_formatInt n⟩
    cases hres : repo.GetOrder (formatInt n) <;> simp [getOrder, hn, hres]
  · intro n hn o2 h2
    have hb := goAtoi_bounds order.OrderID n hn
    cases hu : repo.UpdateOrder ⟨formatInt n, order.CustomerID, order.Items, order.Status⟩ with
    | error e =>
      simp [updateOrder, hn, hu] at h2
      rw [h2]
      exact ⟨rfl, goAtoi_formatInt n hb.1 hb.2, isCanonicalDecimal_formatInt n⟩
    | ok u =>
      simp [updateOrder, hn, hu] at h2
      rw [h2]
      exact ⟨rfl, goAtoi_formatInt n hb.1 hb.2, isCanonicalDecimal_formatInt n⟩

/-- C2 amended witness: the id parameter "042" is accepted as 42 and the
repository receives the canonical string for 42. -/
theorem repo_id_canonical_amended_witness :
    (getOrder stubRepo "042").2 = [RepoCall.getOrder (formatInt 42)] ∧
    goAtoi (formatInt 42) = some 42 ∧ isCanonicalDecimal (formatInt 42) = true :=
  (repo_id_canonical_amended stubRepo "042" ⟨"0", "", [], 0⟩).1 42 (by decide)

/-- C4: over the domain of the conversions the handlers use (Go int64 values),
formatting a nonnegative n with FormatInt and parsing it back with Atoi
yields n again. -/
theorem formatInt_goAtoi_roundtrip (n : Int) (h0 : 0 ≤ n)
    (h1 : n ≤ 9223372036854775807) : goAtoi (formatInt n) = some n :=
  goAtoi_formatInt n (by omega) h1

/-- C4 witness: the round-trip at n = 42. -/
theorem formatInt_goAtoi_roundtrip_witness :
    (0 : Int) ≤ 42 ∧ (42 : Int) ≤ 9223372036854775807 ∧ goAtoi (formatInt 42) = some 42 :=
  ⟨by decide, by decide, formatInt_goAtoi_roundtrip 42 (by decide) (by decide)⟩

/-! ## Claim theorems for startup (getEnvVar / initDatabase) -/

lemma getEnvVar_nil (env : Env) (k : String) :
    getEnvVar env k [] = if env k = "" then Except.error () else Except.ok (env k) := by
  by_cases h : env k = "" <;> simp [getEnvVar, scanFallbacks, h]

lemma getEnvVar_one (env : Env) (k f : String) :
    getEnvVar env k [f]
      = if env k = "" then
          (if env f = "" then Except.error () else Except.ok (env f))
        else Except.ok (env k) := by
  by_cases h : env k = "" <;> by_cases h2 : env f = "" <;>
    simp [getEnvVar, scanFallbacks, h, h2]

/-- A required configuration key of the selected branch is absent (empty,
with all fallbacks also empty for the keyed-with-fallback store URI). -/
def requiredConfigMissing (env : Env) (apiType : String) : Prop :=
  (env "AZURE_COSMOS_RESOURCEENDPOINT" = "" ∧ env "ORDER_DB_URI" = "")
  ∨ env "ORDER_DB_NAME" = ""
  ∨ (apiType = AZURE_COSMOS_DB_SQL_API ∧
      (env "ORDER_DB_CONTAINER_NAME" = "" ∨ env "ORDER_DB_PARTITION_KEY" = ""
        ∨ env "ORDER_DB_PARTITION_VALUE" = ""))
  ∨ (apiType ≠ AZURE_COSMOS_DB_SQL_API ∧ env "ORDER_DB_COLLECTION_NAME" = "")

/-- C5: a missing required configuration key of the selected branch makes
initialization exit the process (no repository, no Order Service value). -/
theorem initDatabase_missing_config_exits (connOk : RepoSpec → Bool) (env : Env)
    (apiType : String) (h : requiredConfigMissing env apiType) :
    initDatabase connOk env apiType = InitResult.exited := by
  unfold requiredConfigMissing at h
  rcases h with ⟨hA, hU⟩ | hN | ⟨hapi, hmiss⟩ | ⟨hapi, hcol⟩
  · simp [initDatabase, getEnvVar_one, hA, hU]
  · by_cases hA : env "AZURE_COSMOS_RESOURCEENDPOINT" = "" <;>
      by_cases hU : env "ORDER_DB_URI" = "" <;>
      simp [initDatabase, getEnvVar_one, getEnvVar_nil, hA, hU, hN]
  · subst hapi
    by_cases hA : env "AZURE_COSMOS_RESOURCEENDPOINT" = "" <;>
      by_cases hU : env "ORDER_DB_URI" = "" <;>
      by_cases hN : env "ORDER_DB_NAME" = "" <;>
      rcases hmiss with hC | hK | hV <;>
      by_cases hC2 : env "ORDER_DB_CONTAINER_NAME" = "" <;>
      by_cases hK2 : env "ORDER_DB_PARTITION_KEY" = "" <;>
      simp_all [initDatabase, getEnvVar_one, getEnvVar_nil]
  · by_cases hA : env "AZURE_COSMOS_RESOURCEENDPOINT" = "" <;>
      by_cases hU : env "ORDER_DB_URI" = "" <;>
      by_cases hN : env "ORDER_DB_NAME" = "" <;>
      simp [initDatabase, getEnvVar_one, getEnvVar_nil, hA, hU, hN, hapi, hcol]

/-- The abstract connection predicate that always succeeds, for witnesses. -/
def connOkAll : RepoSpec → Bool := fun _ => true

/-- A concrete environment with the database name unset. -/
def envMissingName : Env := fun k =>
  if k = "AZURE_COSMOS_RESOURCEENDPOINT" then "uri" else ""

/-- C5 witness: with the database name unset, initialization exits. -/
theorem initDatabase_missing_config_exits_witness :
    initDatabase connOkAll envMissingName "mongodb" = InitResult.exited :=
  initDatabase_missing_config_exits connOkAll envMissingName "mongodb"
    (Or.inr (Or.inl (by decide)))

lemma NewCosmosDBOrderRepoWithManagedIdentity_ok (connOk : RepoSpec → Bool)
    (u d c : String) (pk : PartitionKey) (r : RepoSpec)
    (h : NewCosmosDBOrderRepoWithManagedIdentity connOk u d c pk = Except.ok r) :
    r = RepoSpec.cosmosManagedIdentity u d c pk := by
  by_cases hc : connOk (RepoSpec.cosmosManagedIdentity u d c pk)
  · simp [NewCosmosDBOrderRepoWithManagedIdentity, hc] at h
    exact h.symm
  · simp [NewCosmosDBOrderRepoWithManagedIdentity, hc] at h

lemma NewCosmosDBOrderRepo_ok (connOk : RepoSpec → Bool)
    (u d c p : String) (pk : PartitionKey) (r : RepoSpec)
    (h : NewCosmosDBOrderRepo connOk u d c p pk = Except.ok r) :
    r = RepoSpec.cosmosSharedKey u d c p pk := by
  by_cases hc : connOk (RepoSpec.cosmosSharedKey u d c p pk)
  · simp [NewCosmosDBOrderRepo, hc] at h
    exact h.symm
  · simp [NewCosmosDBOrderRepo, hc] at h

lemma NewMongoDBOrderRepo_ok (connOk : RepoSpec → Bool)
    (u d c un p : String) (r : RepoSpec)
    (h : NewMongoDBOrderRepo connOk u d c un p = Except.ok r) :
    r = RepoSpec.mongo u d c un p := by
  by_cases hc : connOk (RepoSpec.mongo u d c un p)
  · simp [NewMongoDBOrderRepo, hc] at h
    exact h.symm
  · simp [NewMongoDBOrderRepo, hc] at h

/-- Shape of a successful initialization under the partitioned selector:
the service wraps a CosmosDB repository whose auth variant follows the
workload-identity flag, with the shared-key variant receiving the
configured password. -/
lemma initDatabase_ok_cosmos (connOk : RepoSpec → Bool) (env : Env) (svc : OrderService)
    (h : initDatabase connOk env AZURE_COSMOS_DB_SQL_API = InitResult.ok svc) :
    ∃ u d c pk,
      (env "USE_WORKLOAD_IDENTITY_AUTH" = "true" ∧
        svc.repo = RepoSpec.cosmosManagedIdentity u d c pk) ∨
      (env "USE_WORKLOAD_IDENTITY_AUTH" ≠ "true" ∧
        svc.repo = RepoSpec.cosmosSharedKey u d c (env "ORDER_DB_PASSWORD") pk) := by
  unfold initDatabase at h
  cases h1 : getEnvVar env "AZURE_COSMOS_RESOURCEENDPOINT" ["ORDER_DB_URI"] with
  | error e => simp [h1] at h
  | ok dbURI =>
  cases h2 : getEnvVar env "ORDER_DB_NAME" [] with
  | error e => simp [h1, h2] at h
  | ok dbName =>
  cases h3 : getEnvVar env "ORDER_DB_CONTAINER_NAME" [] with
  | error e => simp [h1, h2, h3] at h
  | ok containerName =>
  cases h4 : getEnvVar env "ORDER_DB_PARTITION_KEY" [] with
  | error e => simp [h1, h2, h3, h4] at h
  | ok pkName =>
  cases h5 : getEnvVar env "ORDER_DB_PARTITION_VALUE" [] with
  | error e => simp [h1, h2, h3, h4, h5] at h
  | ok pkValue =>
  by_cases hflag : (if env "USE_WORKLOAD_IDENTITY_AUTH" = "" then "false"
      else env "USE_WORKLOAD_IDENTITY_AUTH") = "true"
  · have hfl : env "USE_WORKLOAD_IDENTITY_AUTH" = "true" := by
      by_cases he : env "USE_WORKLOAD_IDENTITY_AUTH" = ""
      · rw [if_pos he] at hflag; exact absurd hflag (by decide)
      · rw [if_neg he] at hflag; exact hflag
    cases h6 : NewCosmosDBOrderRepoWithManagedIdentity connOk dbURI dbName
        containerName ⟨pkName, pkValue⟩ with
    | error e => simp [h1, h2, h3, h4, h5, hflag, h6] at h
    | ok r =>
      simp only [h1, h2, h3, h4, h5, hflag] at h
      simp [h6] at h
      have hr := NewCosmosDBOrderRepoWithManagedIdentity_ok connOk dbURI dbName
        containerName ⟨pkName, pkValue⟩ r h6
      refine ⟨dbURI, dbName, containerName, ⟨pkName, pkValue⟩, Or.inl ⟨hfl, ?_⟩⟩
      rw [← h]
      simp [NewOrderService, hr]
  · have hfl : env "USE_WORKLOAD_IDENTITY_AUTH" ≠ "true" := by
      intro he
      rw [he] at hflag
      exact hflag (by decide)
    cases h6 : NewCosmosDBOrderRepo connOk dbURI dbName containerName
        (env "ORDER_DB_PASSWORD") ⟨pkName, pkValue⟩ with
    | error e => simp [h1, h2, h3, h4, h5, hflag, h6] at h
    | ok r =>
      simp only [h1, h2, h3, h4, h5] at h
      simp [hflag, h6] at h
      have hr := NewCosmosDBOrderRepo_ok connOk dbURI dbName containerName
        (env "ORDER_DB_PASSWORD") ⟨pkName, pkValue⟩ r h6
      refine ⟨dbURI, dbName, containerName, ⟨pkName, pkValue⟩, Or.inr ⟨hfl, ?_⟩⟩
      rw [← h]
      simp [NewOrderService, hr]

/-- Shape of a successful initialization under any other selector: the
service wraps a MongoDB repository. -/
lemma initDatabase_ok_mongo (connOk : RepoSpec → Bool) (env : Env) (apiType : String)
    (svc : OrderService) (hapi : apiType ≠ AZURE_COSMOS_DB_SQL_API)
    (h : initDatabase connOk env apiType = InitResult.ok svc) :
    ∃ u d c un p, svc.repo = RepoSpec.mongo u d c un p := by
  unfold initDatabase at h
  cases h1 : getEnvVar env "AZURE_COSMOS_RESOURCEENDPOINT" ["ORDER_DB_URI"] with
  | error e => simp [h1] at h
  | ok dbURI =>
  cases h2 : getEnvVar env "ORDER_DB_NAME" [] with
  | error e => simp [h1, h2] at h
  | ok dbName =>
  cases h3 : getEnvVar env "ORDER_DB_COLLECTION_NAME" [] with
  | error e => simp [h1, h2, hapi, h3] at h
  | ok coll =>
  cases h6 : NewMongoDBOrderRepo connOk dbURI dbName coll
      (env "ORDER_DB_USERNAME") (env "ORDER_DB_PASSWORD") with
  | error e => simp [h1, h2, hapi, h3, h6] at h
  | ok r =>
    simp only [h1, h2] at h
    simp [hapi, h3, h6] at h
    have hr := NewMongoDBOrderRepo_ok connOk dbURI dbName coll
      (env "ORDER_DB_USERNAME") (env "ORDER_DB_PASSWORD") r h6
    refine ⟨dbURI, dbName, coll, env "ORDER_DB_USERNAME", env "ORDER_DB_PASSWORD", ?_⟩
    rw [← h]
    simp [NewOrderService, hr]

/-- The constructed backend is partitioned (CosmosDB). -/
def RepoSpec.isPartitioned : RepoSpec → Bool
  | RepoSpec.cosmosManagedIdentity _ _ _ _ => true
  | RepoSpec.cosmosSharedKey _ _ _ _ _ => true
  | RepoSpec.mongo _ _ _ _ _ => false

/-- The constructed backend is the document store (MongoDB). -/
def RepoSpec.isMongo : RepoSpec → Bool
  | RepoSpec.mongo _ _ _ _ _ => true
  | RepoSpec.cosmosManagedIdentity _ _ _ _ => false
  | RepoSpec.cosmosSharedKey _ _ _ _ _ => false

/-- C6: a successful initialization wraps a partitioned (CosmosDB) backend
exactly when the selector equals "cosmosdbsql", and a document-store
(MongoDB) backend for every other selector value. -/
theorem initDatabase_backend_selection (connOk : RepoSpec → Bool) (env : Env)
    (apiType : String) (svc : OrderService)
    (h : initDatabase connOk env apiType = InitResult.ok svc) :
    (svc.repo.isPartitioned = true ↔ apiType = AZURE_COSMOS_DB_SQL_API) ∧
    (svc.repo.isMongo = true ↔ apiType ≠ AZURE_COSMOS_DB_SQL_API) := by
  by_cases hapi : apiType = AZURE_COSMOS_DB_SQL_API
  · subst hapi
    obtain ⟨u, d, c, pk, hcase⟩ := initDatabase_ok_cosmos connOk env svc h
    rcases hcase with ⟨hf, hrepo⟩ | ⟨hf, hrepo⟩ <;>
      simp [hrepo, RepoSpec.isPartitioned, RepoSpec.isMongo]
  · obtain ⟨u, d, c, un, p, hrepo⟩ := initDatabase_ok_mongo connOk env apiType svc hapi h
    simp [hrepo, RepoSpec.isPartitioned, RepoSpec.isMongo, hapi]

/-- A concrete environment for the partitioned selector, auth flag unset. -/
def envCosmos : Env := fun k =>
  if k = "AZURE_COSMOS_RESOURCEENDPOINT" then "uri"
  else if k = "ORDER_DB_NAME" then "db"
  else if k = "ORDER_DB_CONTAINER_NAME" then "cont"
  else if k = "ORDER_DB_PARTITION_KEY" then "pk"
  else if k = "ORDER_DB_PARTITION_VALUE" then "pv"
  else ""

/-- The service built from envCosmos: shared-key auth, empty password. -/
def svcShared : OrderService :=
  ⟨RepoSpec.cosmosSharedKey "uri" "db" "cont" "" ⟨"pk", "pv"⟩⟩

/-- C6 witness: under the partitioned selector with full configuration, the
returned service wraps the partitioned backend. -/
theorem initDatabase_backend_selection_witness :
    (svcShared.repo.isPartitioned = true ↔ AZURE_COSMOS_DB_SQL_API = AZURE_COSMOS_DB_SQL_API) ∧
    (svcShared.repo.isMongo = true ↔ AZURE_COSMOS_DB_SQL_API ≠ AZURE_COSMOS_DB_SQL_API) :=
  initDatabase_backend_selection connOkAll envCosmos AZURE_COSMOS_DB_SQL_API svcShared
    (by decide)

/-- Under workload-identity auth the initialization result does not depend
on the password configuration value at all. -/
lemma initDatabase_password_independent (connOk : RepoSpec → Bool) (env : Env) (p : String)
    (hfl : env "USE_WORKLOAD_IDENTITY_AUTH" = "true") :
    initDatabase connOk (setEnv env "ORDER_DB_PASSWORD" p) AZURE_COSMOS_DB_SQL_API
      = initDatabase connOk env AZURE_COSMOS_DB_SQL_API := by
  have e1 : setEnv env "ORDER_DB_PASSWORD" p "AZURE_COSMOS_RESOURCEENDPOINT"
      = env "AZURE_COSMOS_RESOURCEENDPOINT" := by
    simp only [setEnv]; rw [if_neg (by decide)]
  have e2 : setEnv env "ORDER_DB_PASSWORD" p "ORDER_DB_URI" = env "ORDER_DB_URI" := by
    simp only [setEnv]; rw [if_neg (by decide)]
  have e3 : setEnv env "ORDER_DB_PASSWORD" p "ORDER_DB_NAME" = env "ORDER_DB_NAME" := by
    simp only [setEnv]; rw [if_neg (by decide)]
  have e4 : setEnv env "ORDER_DB_PASSWORD" p "ORDER_DB_CONTAINER_NAME"
      = env "ORDER_DB_CONTAINER_NAME" := by
    simp only [setEnv]; rw [if_neg (by decide)]
  have e5 : setEnv env "ORDER_DB_PASSWORD" p "ORDER_DB_PARTITION_KEY"
      = env "ORDER_DB_PARTITION_KEY" := by
    simp only [setEnv]; rw [if_neg (by decide)]
  have e6 : setEnv env "ORDER_DB_PASSWORD" p "ORDER_DB_PARTITION_VALUE"
      = env "ORDER_DB_PARTITION_VALUE" := by
    simp only [setEnv]; rw [if_neg (by decide)]
  have e7 : setEnv env "ORDER_DB_PASSWORD" p "USE_WORKLOAD_IDENTITY_AUTH"
      = env "USE_WORKLOAD_IDENTITY_AUTH" := by
    simp only [setEnv]; rw [if_neg (by decide)]
  simp [initDatabase, getEnvVar_one, getEnvVar_nil, e1, e2, e3, e4, e5, e6, e7, hfl]

/-- C7: authentication-mode selection for the partitioned backend: an
unset flag (or any value other than "true") selects shared-key auth, whose
client receives the configured password; the value "true" selects workload
identity, whose constructor takes no password-like value and whose result
is independent of the password configuration. -/
theorem initDatabase_auth_mode_selection (connOk : RepoSpec → Bool) (env : Env)
    (svc : OrderService)
    (h : initDatabase connOk env AZURE_COSMOS_DB_SQL_API = InitResult.ok svc) :
    (env "USE_WORKLOAD_IDENTITY_AUTH" = "" →
       ∃ u d c pk, svc.repo = RepoSpec.cosmosSharedKey u d c (env "ORDER_DB_PASSWORD") pk) ∧
    (env "USE_WORKLOAD_IDENTITY_AUTH" = "true" →
       (∃ u d c pk, svc.repo = RepoSpec.cosmosManagedIdentity u d c pk) ∧
       ∀ p, initDatabase connOk (setEnv env "ORDER_DB_PASSWORD" p) AZURE_COSMOS_DB_SQL_API
              = InitResult.ok svc) ∧
    (env "USE_WORKLOAD_IDENTITY_AUTH" ≠ "true" →
       ∃ u d c pk, svc.repo = RepoSpec.cosmosSharedKey u d c (env "ORDER_DB_PASSWORD") pk) := by
  obtain ⟨u, d, c, pk, hcase⟩ := initDatabase_ok_cosmos connOk env svc h
  refine ⟨?_, ?_, ?_⟩
  · intro h0
    rcases hcase with ⟨hf, _⟩ | ⟨_, hrepo⟩
    · rw [h0] at hf; exact absurd hf (by decide)
    · exact ⟨u, d, c, pk, hrepo⟩
  · intro hest
    rcases hcase with ⟨_, hrepo⟩ | ⟨hf, _⟩
    · refine ⟨⟨u, d, c, pk, hrepo⟩, ?_⟩
      intro p
      rw [initDatabase_password_independent connOk env p hest]
      exact h
    · exact absurd hest hf
  · intro hne
    rcases hcase with ⟨hf, _⟩ | ⟨_, hrepo⟩
    · exact absurd hf hne
    · exact ⟨u, d, c, pk, hrepo⟩

/-- A concrete environment selecting workload-identity auth. -/
def envCosmosWI : Env := fun k =>
  if k = "AZURE_COSMOS_RESOURCEENDPOINT" then "uri"
  else if k = "ORDER_DB_NAME" then "db"
  else if k = "ORDER_DB_CONTAINER_NAME" then "cont"
  else if k = "ORDER_DB_PARTITION_KEY" then "pk"
  else if k = "ORDER_DB_PARTITION_VALUE" then "pv"
  else if k = "USE_WORKLOAD_IDENTITY_AUTH" then "true"
  else ""

/-- The service built from envCosmosWI: managed identity, no password. -/
def svcMI : OrderService := ⟨RepoSpec.cosmosManagedIdentity "uri" "db" "cont" ⟨"pk", "pv"⟩⟩

/-- C7 witness: with the flag set to "true", the constructed client is the
managed-identity one, and setting the password to "secret" changes nothing. -/
theorem initDatabase_auth_mode_selection_witness :
    (∃ u d c pk, svcMI.repo = RepoSpec.cosmosManagedIdentity u d c pk) ∧
    initDatabase connOkAll (setEnv envCosmosWI "ORDER_DB_PASSWORD" "secret")
        AZURE_COSMOS_DB_SQL_API = InitResult.ok svcMI := by
  have h := initDatabase_auth_mode_selection connOkAll envCosmosWI svcMI (by decide)
  have h2 := h.2.1 (by decide)
  exact ⟨h2.1, h2.2 "secret"⟩
